import Mathlib

/-!
Verification of the playback layer of `src/notation/internal/notationplayback.cpp`
(`NotationPlayback`): tick and time conversions, loop-boundary management,
play-position queries, total-play-time caching and sound-flag maintenance.
Ticks are modelled as integers; `Fraction` values that arise from
`Fraction::fromTicks` are modelled by their tick value (the conversion is an
order embedding and all fractions involved come from ticks).  Seconds
(`muse::audio::secs_t`) are modelled as exact rationals.  Change notifications
are modelled by counters: firing a notification increments the counter.
-/

namespace MuseScorePlayback

/-- One segment-expansion view of the score, as produced by
`Score::repeatList(expandRepeats)`: its total expanded tick count and the
tick/u-tick conversions it provides. -/
structure RepeatList where
  ticks : Int
  tick2utick : Int → Int
  utick2tick : Int → Int

/-- The part of `mu::engraving::Score` that `NotationPlayback` reads and
writes: the stored loop markers (`loopInTick`/`loopOutTick`, mutated through
`setLoopInTick`/`setLoopOutTick`), the end tick of the last measure
(`lastMeasure()->endTick()`), the current cursor position (`pos()`), the input
state duration (`inputState().ticks()`), the u-tick/time conversions
(`utick2utime`/`utime2utick`), the repeat list per repeat-expansion flag, the
signature map's `bar2tick` and the tempo-map multiplier value. -/
structure Score where
  loopInTick : Int
  loopOutTick : Int
  lastMeasureEndTick : Int
  pos : Int
  inputStateTicks : Int
  utick2utime : Int → ℚ
  utime2utick : ℚ → Int
  repeatList : Bool → RepeatList
  bar2tick : Int → Int → Int
  tempoMultiplierVal : ℚ

/-- Modelled from the spec: the sentinel tick argument meaning "use the
current selection" (`BoundaryTick::SelectedNoteTick`, declared in
`notationtypes.h`, which is outside the provided sources).  Its concrete
numeric value is irrelevant to the claims below; it is modelled as `-1`, a
value that is never a genuine score tick. -/
def SelectedNoteTick : Int := -1

/-- `NotationPlayback::addLoopIn`: resolve the sentinel to the cursor
position; if the resulting tick is at or past the current loop-out marker,
reset loop-out to the end of the last measure; then store the tick as the
loop-in marker. -/
def addLoopIn (s : Score) (t : Int) : Score :=
  let tick := if t = SelectedNoteTick then s.pos else t
  let s1 := if tick ≥ s.loopOutTick then { s with loopOutTick := s.lastMeasureEndTick } else s
  { s1 with loopInTick := tick }

/-- `NotationPlayback::addLoopOut`: resolve the sentinel to cursor position
plus input-state duration; if the resulting tick is at or before the current
loop-in marker, reset loop-in to 0, otherwise clamp the tick to the end of the
last measure; then store it as the loop-out marker. -/
def addLoopOut (s : Score) (t : Int) : Score :=
  let tick := if t = SelectedNoteTick then s.pos + s.inputStateTicks else t
  if tick ≤ s.loopInTick then
    { s with loopInTick := 0, loopOutTick := tick }
  else
    { s with loopOutTick := if tick > s.lastMeasureEndTick then s.lastMeasureEndTick else tick }

/-- A call in a sequence of loop-boundary edits: either `addLoopIn` or
`addLoopOut` with its tick argument. -/
inductive LoopCall where
  | loopInCall (t : Int)
  | loopOutCall (t : Int)
deriving DecidableEq

/-- The tick argument carried by a `LoopCall`. -/
def LoopCall.tickArg : LoopCall → Int
  | .loopInCall t => t
  | .loopOutCall t => t

/-- Apply one `LoopCall` to a score. -/
def applyLoopCall (s : Score) (c : LoopCall) : Score :=
  match c with
  | .loopInCall t => addLoopIn s t
  | .loopOutCall t => addLoopOut s t

/-- Apply a sequence of `addLoopIn`/`addLoopOut` calls to a score, left to
right. -/
def applyLoopCalls (s : Score) (cs : List LoopCall) : Score :=
  cs.foldl applyLoopCall s

/-- The loop ordering invariant claimed by the spec:
loop-in ≤ loop-out ≤ last score tick. -/
def loopTicksOrdered (s : Score) : Prop :=
  s.loopInTick ≤ s.loopOutTick ∧ s.loopOutTick ≤ s.lastMeasureEndTick

instance (s : Score) : Decidable (loopTicksOrdered s) := by
  unfold loopTicksOrdered; infer_instance

/-- A concrete score used to evaluate the loop operations: loop-in 0,
loop-out 2000, last measure ending at tick 2000. -/
def loopDemoScore : Score where
  loopInTick := 0
  loopOutTick := 2000
  lastMeasureEndTick := 2000
  pos := 0
  inputStateTicks := 0
  utick2utime := fun _ => 0
  utime2utick := fun _ => 0
  repeatList := fun _ => ⟨0, fun t => t, fun t => t⟩
  bar2tick := fun _ _ => 0
  tempoMultiplierVal := 1

lemma addLoopIn_lastMeasureEndTick (s : Score) (t : Int) :
    (addLoopIn s t).lastMeasureEndTick = s.lastMeasureEndTick := by
  unfold addLoopIn
  dsimp only
  split <;> split <;> rfl

lemma addLoopOut_lastMeasureEndTick (s : Score) (t : Int) :
    (addLoopOut s t).lastMeasureEndTick = s.lastMeasureEndTick := by
  unfold addLoopOut
  dsimp only
  split <;> split <;> rfl

lemma addLoopIn_preserves (s : Score) (t : Int) (hs : loopTicksOrdered s)
    (h0 : 0 ≤ t) (hle : t ≤ s.lastMeasureEndTick) :
    loopTicksOrdered (addLoopIn s t) := by
  have hsent : t ≠ SelectedNoteTick := by
    intro h; rw [h] at h0; exact absurd h0 (by decide)
  unfold addLoopIn loopTicksOrdered
  simp only [if_neg hsent]
  by_cases hcmp : t ≥ s.loopOutTick
  · simp only [if_pos hcmp]
    exact ⟨hle, le_refl _⟩
  · simp only [if_neg hcmp]
    exact ⟨le_of_not_ge hcmp, hs.2⟩

lemma addLoopOut_preserves (s : Score) (t : Int) (hs : loopTicksOrdered s)
    (h0 : 0 ≤ t) (hle : t ≤ s.lastMeasureEndTick) :
    loopTicksOrdered (addLoopOut s t) := by
  have hsent : t ≠ SelectedNoteTick := by
    intro h; rw [h] at h0; exact absurd h0 (by decide)
  unfold addLoopOut loopTicksOrdered
  simp only [if_neg hsent]
  by_cases hcmp : t ≤ s.loopInTick
  · simp only [if_pos hcmp]
    exact ⟨h0, hle⟩
  · simp only [if_neg hcmp]
    by_cases hcl : t > s.lastMeasureEndTick
    · simp only [if_pos hcl]
      exact ⟨le_trans hs.1 hs.2, le_refl _⟩
    · simp only [if_neg hcl]
      exact ⟨le_of_lt (lt_of_not_ge hcmp), hle⟩

lemma applyLoopCall_lastMeasureEndTick (s : Score) (c : LoopCall) :
    (applyLoopCall s c).lastMeasureEndTick = s.lastMeasureEndTick := by
  cases c with
  | loopInCall t => exact addLoopIn_lastMeasureEndTick s t
  | loopOutCall t => exact addLoopOut_lastMeasureEndTick s t

lemma applyLoopCall_preserves (s : Score) (c : LoopCall) (hs : loopTicksOrdered s)
    (h0 : 0 ≤ c.tickArg) (hle : c.tickArg ≤ s.lastMeasureEndTick) :
    loopTicksOrdered (applyLoopCall s c) := by
  cases c with
  | loopInCall t => exact addLoopIn_preserves s t hs h0 hle
  | loopOutCall t => exact addLoopOut_preserves s t hs h0 hle

/-- C1 (counterexample): the claimed invariant fails for arbitrary integer
tick arguments.  On a score whose last measure ends at tick 2000 and whose
loop markers are (0, 2000), the single-call sequence `addLoopIn 3000` resets
loop-out to 2000 and then stores loop-in = 3000, so afterwards
loopInTick = 3000 > loopOutTick = 2000 and the invariant
loopInTick ≤ loopOutTick ≤ lastScoreTick is violated. -/
theorem loopTicksOrdered_violated :
    ¬ loopTicksOrdered (applyLoopCalls loopDemoScore [LoopCall.loopInCall 3000]) := by
  decide

/-- C1 (amended): for every sequence of `addLoopIn`/`addLoopOut` calls whose
tick arguments lie within [0, last score tick], starting from a state that
satisfies the invariant (such as the default state (0, lastScoreTick)), the
resulting loop state satisfies loopInTick ≤ loopOutTick ≤ lastScoreTick. -/
theorem applyLoopCalls_loopTicksOrdered (s : Score) (cs : List LoopCall)
    (hs : loopTicksOrdered s)
    (hcs : ∀ c ∈ cs, 0 ≤ c.tickArg ∧ c.tickArg ≤ s.lastMeasureEndTick) :
    loopTicksOrdered (applyLoopCalls s cs) := by
  induction cs generalizing s with
  | nil => exact hs
  | cons c rest ih =>
    have hc := hcs c (List.mem_cons_self c rest)
    have hstep : loopTicksOrdered (applyLoopCall s c) :=
      applyLoopCall_preserves s c hs hc.1 hc.2
    have hrest : ∀ c' ∈ rest, 0 ≤ c'.tickArg ∧
        c'.tickArg ≤ (applyLoopCall s c).lastMeasureEndTick := by
      intro c' hc'
      rw [applyLoopCall_lastMeasureEndTick]
      exact hcs c' (List.mem_cons_of_mem c hc')
    exact ih (applyLoopCall s c) hstep hrest

/-- Witness for C1 (amended): a concrete in-range call sequence on the demo
score keeps the invariant. -/
theorem applyLoopCalls_loopTicksOrdered_witness :
    loopTicksOrdered (applyLoopCalls loopDemoScore
      [LoopCall.loopInCall 1500, LoopCall.loopOutCall 200]) :=
  applyLoopCalls_loopTicksOrdered loopDemoScore
    [LoopCall.loopInCall 1500, LoopCall.loopOutCall 200] (by decide) (by decide)

/-- C4: for every non-sentinel tick t, if t ≥ the current loopOutTick then
`addLoopIn t` resets loopOutTick to the end tick of the last measure and sets
loopInTick = t; otherwise it sets loopInTick = t and leaves every other field,
in particular loopOutTick, unchanged. -/
theorem addLoopIn_spec (s : Score) (t : Int) (hsent : t ≠ SelectedNoteTick) :
    (t ≥ s.loopOutTick →
      addLoopIn s t = { s with loopOutTick := s.lastMeasureEndTick, loopInTick := t }) ∧
    (¬ t ≥ s.loopOutTick → addLoopIn s t = { s with loopInTick := t }) := by
  unfold addLoopIn
  simp only [if_neg hsent]
  constructor
  · intro h
    simp only [if_pos h]
  · intro h
    simp only [if_neg h]

/-- Witness for C4: on the demo score (loop-out 2000, last tick 2000),
`addLoopIn 2500` resets loop-out to 2000 and stores loop-in 2500. -/
theorem addLoopIn_spec_witness :
    (2500 : Int) ≠ SelectedNoteTick ∧
    addLoopIn loopDemoScore 2500 =
      { loopDemoScore with
          loopOutTick := loopDemoScore.lastMeasureEndTick, loopInTick := 2500 } :=
  ⟨by decide, (addLoopIn_spec loopDemoScore 2500 (by decide)).1 (by decide)⟩

/-- A concrete score with loop markers (500, 1000), matching the spec's
worked example for `addLoopOut`. -/
def loopDemoScoreB : Score where
  loopInTick := 500
  loopOutTick := 1000
  lastMeasureEndTick := 2000
  pos := 0
  inputStateTicks := 0
  utick2utime := fun _ => 0
  utime2utick := fun _ => 0
  repeatList := fun _ => ⟨0, fun t => t, fun t => t⟩
  bar2tick := fun _ _ => 0
  tempoMultiplierVal := 1

/-- C5: for every non-sentinel tick t, if t ≤ the current loopInTick then
`addLoopOut t` resets loopInTick to 0 and sets loopOutTick = t (without
clamping); otherwise it sets loopOutTick to t clamped to the last measure's
end tick and leaves loopInTick (and every other field) unchanged. -/
theorem addLoopOut_spec (s : Score) (t : Int) (hsent : t ≠ SelectedNoteTick) :
    (t ≤ s.loopInTick →
      addLoopOut s t = { s with loopInTick := 0, loopOutTick := t }) ∧
    (¬ t ≤ s.loopInTick →
      addLoopOut s t = { s with loopOutTick := min t s.lastMeasureEndTick }) := by
  unfold addLoopOut
  simp only [if_neg hsent]
  constructor
  · intro h
    simp only [if_pos h]
  · intro h
    simp only [if_neg h]
    have hmin : (if t > s.lastMeasureEndTick then s.lastMeasureEndTick else t)
        = min t s.lastMeasureEndTick := by
      rcases le_or_lt t s.lastMeasureEndTick with hle | hgt
      · rw [if_neg (not_lt.mpr hle), min_eq_left hle]
      · rw [if_pos hgt, min_eq_right (le_of_lt hgt)]
    rw [hmin]

/-- Witness for C5: the spec's worked example: state (in 500, out 1000),
`addLoopOut 200` yields (in 0, out 200). -/
theorem addLoopOut_spec_witness :
    (200 : Int) ≠ SelectedNoteTick ∧
    addLoopOut loopDemoScoreB 200 =
      { loopDemoScoreB with loopInTick := 0, loopOutTick := 200 } :=
  ⟨by decide, (addLoopOut_spec loopDemoScoreB 200 (by decide)).1 (by decide)⟩

/-- The `LoopBoundaries` value held by `NotationPlayback` (`m_loopBoundaries`):
loop-in tick, loop-out tick and the locally owned enabled flag.  Equality is
structural, matching the comparison used by `updateLoopBoundaries`. -/
structure LoopBoundaries where
  loopInTick : Int
  loopOutTick : Int
  enabled : Bool
deriving DecidableEq

/-- The controller-side state touched by `setLoopBoundariesEnabled` and
`updateLoopBoundaries`: the cached boundaries plus a counter of
`m_loopBoundariesChanged` notifications fired so far. -/
structure LoopState where
  loopBoundaries : LoopBoundaries
  loopNotifyCount : Nat
deriving DecidableEq

/-- `NotationPlayback::setLoopBoundariesEnabled`: if the enabled flag already
has the requested value, return without any change; otherwise store the flag
and fire the loop-boundaries-changed notification. -/
def setLoopBoundariesEnabled (st : LoopState) (enabled : Bool) : LoopState :=
  if st.loopBoundaries.enabled = enabled then st
  else
    { loopBoundaries := { st.loopBoundaries with enabled := enabled },
      loopNotifyCount := st.loopNotifyCount + 1 }

/-- `NotationPlayback::updateLoopBoundaries` (the handler run on every
score-changed notification): rebuild the boundaries from the score's stored
loop markers, keeping the current enabled flag; if the rebuilt tuple differs
structurally from the cached one, store it and fire the
loop-boundaries-changed notification, otherwise do nothing. -/
def updateLoopBoundaries (st : LoopState) (sc : Score) : LoopState :=
  let newBoundaries : LoopBoundaries :=
    { loopInTick := sc.loopInTick
      loopOutTick := sc.loopOutTick
      enabled := st.loopBoundaries.enabled }
  if st.loopBoundaries ≠ newBoundaries then
    { loopBoundaries := newBoundaries, loopNotifyCount := st.loopNotifyCount + 1 }
  else st

/-- C6: if the current enabled flag already equals b, then
`setLoopBoundariesEnabled b` leaves the whole state (boundaries tuple and
notification count) unchanged; and calling it twice with the same value fires
the loop-boundaries-changed notification at most once in total. -/
theorem setLoopBoundariesEnabled_spec (st : LoopState) (b : Bool) :
    (st.loopBoundaries.enabled = b → setLoopBoundariesEnabled st b = st) ∧
    (setLoopBoundariesEnabled (setLoopBoundariesEnabled st b) b).loopNotifyCount
      ≤ st.loopNotifyCount + 1 := by
  have hsame : ∀ st' : LoopState, st'.loopBoundaries.enabled = b →
      setLoopBoundariesEnabled st' b = st' := by
    intro st' h
    unfold setLoopBoundariesEnabled
    rw [if_pos h]
  refine ⟨hsame st, ?_⟩
  by_cases h : st.loopBoundaries.enabled = b
  · rw [hsame st h, hsame st h]
    exact Nat.le_succ _
  · have h1 : setLoopBoundariesEnabled st b =
        ⟨{ st.loopBoundaries with enabled := b }, st.loopNotifyCount + 1⟩ := by
      unfold setLoopBoundariesEnabled
      rw [if_neg h]
    rw [h1, hsame _ rfl]

/-- Witness for C6: a concrete state whose enabled flag is already false is
left untouched by `setLoopBoundariesEnabled false`, and the double call fires
at most one notification. -/
theorem setLoopBoundariesEnabled_spec_witness :
    (setLoopBoundariesEnabled ⟨⟨0, 2000, false⟩, 0⟩ false = ⟨⟨0, 2000, false⟩, 0⟩) ∧
    (setLoopBoundariesEnabled (setLoopBoundariesEnabled ⟨⟨0, 2000, false⟩, 0⟩ false)
      false).loopNotifyCount ≤ 0 + 1 :=
  ⟨(setLoopBoundariesEnabled_spec ⟨⟨0, 2000, false⟩, 0⟩ false).1 rfl,
    (setLoopBoundariesEnabled_spec ⟨⟨0, 2000, false⟩, 0⟩ false).2⟩

/-- C9: on a score-changed notification, `updateLoopBoundaries` recomputes
loop-in/loop-out from the score's stored loop markers, leaves the locally
owned enabled flag unchanged, and fires the loop-boundaries-changed
notification exactly when the recomputed tuple differs from the cached one. -/
theorem updateLoopBoundaries_spec (st : LoopState) (sc : Score) :
    (updateLoopBoundaries st sc).loopBoundaries.loopInTick = sc.loopInTick ∧
    (updateLoopBoundaries st sc).loopBoundaries.loopOutTick = sc.loopOutTick ∧
    (updateLoopBoundaries st sc).loopBoundaries.enabled = st.loopBoundaries.enabled ∧
    ((updateLoopBoundaries st sc).loopNotifyCount = st.loopNotifyCount + 1 ↔
      st.loopBoundaries ≠
        LoopBoundaries.mk sc.loopInTick sc.loopOutTick st.loopBoundaries.enabled) ∧
    ((updateLoopBoundaries st sc).loopNotifyCount = st.loopNotifyCount ↔
      st.loopBoundaries =
        LoopBoundaries.mk sc.loopInTick sc.loopOutTick st.loopBoundaries.enabled) := by
  simp only [updateLoopBoundaries]
  by_cases h : st.loopBoundaries =
      LoopBoundaries.mk sc.loopInTick sc.loopOutTick st.loopBoundaries.enabled
  · rw [if_neg (not_not_intro h)]
    exact ⟨by rw [h], by rw [h], rfl,
      iff_of_false (fun hc => Nat.succ_ne_self st.loopNotifyCount hc.symm)
        (fun hne => hne h),
      iff_of_true rfl h⟩
  · rw [if_pos h]
    exact ⟨rfl, rfl, rfl, iff_of_true rfl h,
      iff_of_false (Nat.succ_ne_self st.loopNotifyCount) (fun heq => h heq)⟩

/-- The fixed playback tail (`PLAYBACK_TAIL_SECS`), in seconds, appended after
the last u-tick so decaying sound is not cut off. -/
def PLAYBACK_TAIL_SECS : ℚ := 3

/-- The state touched by `updateTotalPlayTime`: the cached total play time
(`m_totalPlayTime`) and a counter of `m_totalPlayTimeChanged` notifications
sent so far. -/
structure PlayTimeState where
  totalPlayTime : ℚ
  totalPlayTimeNotifyCount : Nat
deriving DecidableEq

/-- `NotationPlayback::updateTotalPlayTime`: if no score is loaded, do
nothing.  Otherwise take the tick count of the repeat list under the current
repeat-expansion flag, convert it to seconds with `utick2utime`, add the fixed
tail; if the result equals the cached value, return, else store it and send
the total-play-time-changed notification. -/
def updateTotalPlayTime (st : PlayTimeState) (score : Option Score)
    (isPlayRepeatsEnabled : Bool) : PlayTimeState :=
  match score with
  | none => st
  | some sc =>
    let lastTick := (sc.repeatList isPlayRepeatsEnabled).ticks
    let newPlayTime := sc.utick2utime lastTick + PLAYBACK_TAIL_SECS
    if st.totalPlayTime = newPlayTime then st
    else
      { totalPlayTime := newPlayTime
        totalPlayTimeNotifyCount := st.totalPlayTimeNotifyCount + 1 }

/-- C3: recomputing the total play time for a loaded score caches exactly the
seconds-time of the score's last u-tick under the current repeat-expansion
flag plus 3 seconds, and the total-play-time-changed notification fires if and
only if the newly computed value differs (exact equality on the seconds
scalar) from the previously cached value. -/
theorem updateTotalPlayTime_spec (st : PlayTimeState) (sc : Score) (expand : Bool) :
    (updateTotalPlayTime st (some sc) expand).totalPlayTime
      = sc.utick2utime ((sc.repeatList expand).ticks) + PLAYBACK_TAIL_SECS ∧
    ((updateTotalPlayTime st (some sc) expand).totalPlayTimeNotifyCount
        = st.totalPlayTimeNotifyCount + 1 ↔
      sc.utick2utime ((sc.repeatList expand).ticks) + PLAYBACK_TAIL_SECS
        ≠ st.totalPlayTime) ∧
    ((updateTotalPlayTime st (some sc) expand).totalPlayTimeNotifyCount
        = st.totalPlayTimeNotifyCount ↔
      sc.utick2utime ((sc.repeatList expand).ticks) + PLAYBACK_TAIL_SECS
        = st.totalPlayTime) := by
  simp only [updateTotalPlayTime]
  by_cases h : st.totalPlayTime
      = sc.utick2utime ((sc.repeatList expand).ticks) + PLAYBACK_TAIL_SECS
  · rw [if_pos h]
    exact ⟨h,
      iff_of_false (fun hc => Nat.succ_ne_self st.totalPlayTimeNotifyCount hc.symm)
        (fun hne => hne h.symm),
      iff_of_true rfl h.symm⟩
  · rw [if_neg h]
    exact ⟨rfl, iff_of_true rfl (fun heq => h heq.symm),
      iff_of_false (Nat.succ_ne_self st.totalPlayTimeNotifyCount)
        (fun heq => h heq.symm)⟩

/-- The result type of the play-position queries, mirroring
`RetVal<muse::midi::tick_t>`: either a successful tick value
(`RetVal::make_ok`) or the `Err::Undefined` failure (`make_ret`). -/
inductive RetVal (α : Type) where
  | ok (val : α)
  | undefinedErr
deriving DecidableEq

/-- The part of an `EngravingItem` used by `playPositionTickByElement`: its
own tick (`element->tick().ticks()`). -/
structure Element where
  tickTicks : Int
deriving DecidableEq

/-- `NotationPlayback::playPositionTickByRawTick`: fail with `Err::Undefined`
when no score is loaded; otherwise map the raw tick through the repeat list
under the current repeat-expansion flag. -/
def playPositionTickByRawTick (score : Option Score) (expand : Bool)
    (tick : Int) : RetVal Int :=
  match score with
  | none => RetVal.undefinedErr
  | some sc => RetVal.ok ((sc.repeatList expand).tick2utick tick)

/-- `NotationPlayback::playPositionTickByElement`: fail with `Err::Undefined`
when the element is null or no score is loaded; otherwise delegate to
`playPositionTickByRawTick` at the element's own tick. -/
def playPositionTickByElement (score : Option Score) (expand : Bool)
    (element : Option Element) : RetVal Int :=
  match element with
  | none => RetVal.undefinedErr
  | some el =>
    match score with
    | none => RetVal.undefinedErr
    | some sc => playPositionTickByRawTick (some sc) expand el.tickTicks

/-- C7: `playPositionTickByRawTick` fails with the undefined result when no
score is loaded and otherwise returns the repeat list's u-tick for the raw
tick under the current repeat-expansion flag; `playPositionTickByElement`
fails when the element is null or no score is loaded, and otherwise equals
`playPositionTickByRawTick` applied to the element's own tick. -/
theorem playPositionTick_spec (expand : Bool) (tick : Int) (sc : Score)
    (el : Element) :
    playPositionTickByRawTick none expand tick = RetVal.undefinedErr ∧
    playPositionTickByRawTick (some sc) expand tick
      = RetVal.ok ((sc.repeatList expand).tick2utick tick) ∧
    (∀ e : Option Element,
      playPositionTickByElement none expand e = RetVal.undefinedErr) ∧
    (∀ s : Option Score,
      playPositionTickByElement s expand none = RetVal.undefinedErr) ∧
    playPositionTickByElement (some sc) expand (some el)
      = playPositionTickByRawTick (some sc) expand el.tickTicks := by
  refine ⟨rfl, rfl, ?_, ?_, rfl⟩
  · intro e
    cases e <;> rfl
  · intro s
    cases s <;> rfl

/-- `NotationPlayback::playedTickToSec`: seconds of a played (u-)tick, 0.0
when no score is loaded. -/
def playedTickToSec (score : Option Score) (tick : Int) : ℚ :=
  match score with
  | some sc => sc.utick2utime tick
  | none => 0

/-- `NotationPlayback::secToPlayedTick`: played (u-)tick at a seconds value,
0 when no score is loaded. -/
def secToPlayedTick (score : Option Score) (sec : ℚ) : Int :=
  match score with
  | none => 0
  | some sc => sc.utime2utick sec

/-- `NotationPlayback::secToTick`: raw tick currently sounding at a seconds
value: convert seconds to a played tick, then inverse-map it through the
repeat list; 0 when no score is loaded. -/
def secToTick (score : Option Score) (expand : Bool) (sec : ℚ) : Int :=
  match score with
  | none => 0
  | some sc => (sc.repeatList expand).utick2tick (secToPlayedTick (some sc) sec)

/-- `NotationPlayback::beatToRawTick`: the signature map's `bar2tick` for a
measure/beat pair, 0 when no score is loaded. -/
def beatToRawTick (score : Option Score) (measureIdx beatIdx : Int) : Int :=
  match score with
  | some sc => sc.bar2tick measureIdx beatIdx
  | none => 0

/-- `NotationPlayback::tempoMultiplier`: the tempo map's multiplier value,
1.0 when no score is loaded. -/
def tempoMultiplier (score : Option Score) : ℚ :=
  match score with
  | some sc => sc.tempoMultiplierVal
  | none => 1

/-- C10: with no score loaded, every pure conversion query returns its fixed
default instead of failing: `playedTickToSec` returns 0.0 for every tick,
`secToPlayedTick` and `secToTick` return 0 for every seconds value,
`beatToRawTick` returns 0 for every measure/beat pair, and `tempoMultiplier`
returns 1.0. -/
theorem noScore_defaults (tick : Int) (sec : ℚ) (expand : Bool)
    (measureIdx beatIdx : Int) :
    playedTickToSec none tick = 0 ∧
    secToPlayedTick none sec = 0 ∧
    secToTick none expand sec = 0 ∧
    beatToRawTick none measureIdx beatIdx = 0 ∧
    tempoMultiplier none = 1 :=
  ⟨rfl, rfl, rfl, rfl, rfl⟩

/-- An annotation attached to a chord-rest segment, as seen by the sound-flag
maintenance code: its identity, whether it is a `StaffText`, whether it
currently carries a `SoundFlag` child (`hasSoundFlag()`), the instrument
track it belongs to (`makeInstrumentTrackId`), and the identities of its
linked copies (`links()`, the shared `LinkedObjects` list, which also
contains the item itself). -/
structure AnnItem where
  sid : Nat
  isStaffText : Bool
  hasSoundFlag : Bool
  trackId : Nat
  links : List Nat
deriving DecidableEq

/-- State for the sound-flag operations: the score's chord-rest segment
annotations in tick order, plus counters of `m_notationChanged` notifications
and of `m_playbackModel.reload()` calls. -/
structure FlagState where
  anns : List AnnItem
  notifyCount : Nat
  reloadCount : Nat
deriving DecidableEq

/-- Resolve an item by identity (a pointer dereference in the source). -/
def findAnn : List AnnItem → Nat → Option AnnItem
  | [], _ => none
  | a :: rest, i => if a.sid = i then some a else findAnn rest i

/-- Set or clear the sound flag of the item with the given identity
(`staffText->add(soundFlag)` / `staffText->remove(soundFlag)`). -/
def setFlagById (anns : List AnnItem) (i : Nat) (b : Bool) : List AnnItem :=
  anns.map fun a => if a.sid = i then { a with hasSoundFlag := b } else a

/-- Whether the item with the given identity exists. -/
def existsAnn (anns : List AnnItem) (i : Nat) : Bool :=
  (findAnn anns i).isSome

/-- Whether the item with the given identity exists and is a staff text. -/
def isStaffTextIn (anns : List AnnItem) (i : Nat) : Bool :=
  match findAnn anns i with
  | some a => a.isStaffText
  | none => false

/-- Whether the item with the given identity exists and carries a sound
flag. -/
def hasFlagIn (anns : List AnnItem) (i : Nat) : Bool :=
  match findAnn anns i with
  | some a => a.hasSoundFlag
  | none => false

/-- The link list of the item with the given identity. -/
def linksOf (anns : List AnnItem) (i : Nat) : List Nat :=
  match findAnn anns i with
  | some a => a.links
  | none => []

/-- One iteration of the link loop inside `doAddSoundFlag`: attach a linked
clone of the new sound flag to the linked object when it is a staff text
other than the original. -/
def addFlagStep (orig : Nat) (anns : List AnnItem) (l : Nat) : List AnnItem :=
  if l ≠ orig then
    match findAnn anns l with
    | some la => if la.isStaffText then setFlagById anns l true else anns
    | none => anns
  else anns

/-- The link loop inside `doAddSoundFlag`: attach a linked clone of the new
sound flag to every linked staff text other than the original. -/
def addFlagToLinks (orig : Nat) (ls : List Nat) (anns : List AnnItem) :
    List AnnItem :=
  ls.foldl (addFlagStep orig) anns

/-- `NotationPlayback::doAddSoundFlag`: nothing happens for a null staff text
or when it already has a sound flag; otherwise attach a new flag to it and a
linked clone to every linked staff text, and report that a flag was added. -/
def doAddSoundFlag (anns : List AnnItem) (i : Nat) : List AnnItem × Bool :=
  match findAnn anns i with
  | none => (anns, false)
  | some a =>
    if a.hasSoundFlag then (anns, false)
    else (addFlagToLinks i a.links (setFlagById anns i true), true)

/-- The loop of `addSoundFlags`, accumulating `added |= doAddSoundFlag(...)`
over the listed staff texts. -/
def addSoundFlagsLoop (anns : List AnnItem) (ids : List Nat) (added : Bool) :
    List AnnItem × Bool :=
  match ids with
  | [] => (anns, added)
  | i :: rest =>
    let r := doAddSoundFlag anns i
    addSoundFlagsLoop r.1 rest (added || r.2)

/-- `NotationPlayback::addSoundFlags`: return early on an empty list;
otherwise run `doAddSoundFlag` on every listed staff text and, when at least
one flag was added, update the score and fire the score-changed notification
exactly once. -/
def addSoundFlags (st : FlagState) (ids : List Nat) : FlagState :=
  if ids.isEmpty then st
  else
    let r := addSoundFlagsLoop st.anns ids false
    if r.2 then { st with anns := r.1, notifyCount := st.notifyCount + 1 }
    else { st with anns := r.1 }

/-- `NotationPlayback::collectStaffText`: with an empty track set return an
empty list without scanning; otherwise keep, in score order, the staff-text
items whose sound-flag presence matches `withSoundFlags` and whose derived
track id belongs to the set. -/
def collectStaffText (anns : List AnnItem) (trackIdSet : List Nat)
    (withSoundFlags : Bool) : List AnnItem :=
  if trackIdSet.isEmpty then []
  else anns.filter fun a =>
    a.isStaffText && a.hasSoundFlag == withSoundFlags
      && trackIdSet.contains a.trackId

/-- The inner link loop of `removeSoundFlags`: remove the sound flag from
every linked staff text, other than the original, that still carries one. -/
def removeFlagFromLinks (orig : Nat) (ls : List Nat) (anns : List AnnItem) :
    List AnnItem :=
  ls.foldl (fun acc l =>
    if l ≠ orig then
      match findAnn acc l with
      | some la =>
        if la.isStaffText && la.hasSoundFlag then setFlagById acc l false
        else acc
      | none => acc
    else acc) anns

/-- One iteration of the `removeSoundFlags` loop for a collected staff text:
skip it when its flag is already gone, otherwise remove the flag and then the
flags of all its linked staff texts. -/
def doRemoveSoundFlag (anns : List AnnItem) (i : Nat) : List AnnItem :=
  match findAnn anns i with
  | none => anns
  | some a =>
    if !a.hasSoundFlag then anns
    else removeFlagFromLinks i a.links (setFlagById anns i false)

/-- `NotationPlayback::removeSoundFlags`: collect the flagged staff texts of
the given tracks; if none were collected return without any effect; otherwise
remove each collected flag together with its linked clones, then reload the
playback data and fire the score-changed notification once. -/
def removeSoundFlags (st : FlagState) (trackIdSet : List Nat) : FlagState :=
  let staffTextList := collectStaffText st.anns trackIdSet true
  if staffTextList.isEmpty then st
  else
    { anns := staffTextList.foldl (fun acc a => doRemoveSoundFlag acc a.sid) st.anns
      reloadCount := st.reloadCount + 1
      notifyCount := st.notifyCount + 1 }

/-- A concrete flag state: one flagged staff text on track 7, no
notifications or reloads so far. -/
def flagDemoState : FlagState :=
  { anns := [⟨1, true, true, 7, [1]⟩], notifyCount := 0, reloadCount := 0 }

/-- C2 (counterexample): with an empty track set, `removeSoundFlags` collects
nothing and returns without reloading the playback data and without firing
the score-changed notification, contradicting the claim that it always does
both exactly once. -/
theorem removeSoundFlags_skips_on_empty :
    ¬ ((removeSoundFlags flagDemoState []).reloadCount
        = flagDemoState.reloadCount + 1 ∧
      (removeSoundFlags flagDemoState []).notifyCount
        = flagDemoState.notifyCount + 1) := by
  decide

/-- C2 (amended): `removeSoundFlags` reloads the playback data and fires the
score-changed notification exactly once when the collected list of flagged
staff texts for the given tracks is non-empty, and performs no reload and no
notification when that list is empty (in particular for an empty track set or
when no listed track carries a sound flag). -/
theorem removeSoundFlags_spec (st : FlagState) (trackIdSet : List Nat) :
    (removeSoundFlags st trackIdSet).reloadCount = st.reloadCount
      + (if (collectStaffText st.anns trackIdSet true).isEmpty then 0 else 1) ∧
    (removeSoundFlags st trackIdSet).notifyCount = st.notifyCount
      + (if (collectStaffText st.anns trackIdSet true).isEmpty then 0 else 1) := by
  unfold removeSoundFlags
  cases h : (collectStaffText st.anns trackIdSet true).isEmpty with
  | true => simp [h]
  | false => simp [h]

lemma findAnn_sid (anns : List AnnItem) (j : Nat) (a : AnnItem)
    (h : findAnn anns j = some a) : a.sid = j := by
  induction anns with
  | nil => cases h
  | cons x rest ih =>
    simp only [findAnn] at h
    by_cases hx : x.sid = j
    · rw [if_pos hx] at h
      injection h with h2
      rw [← h2]
      exact hx
    · rw [if_neg hx] at h
      exact ih h

lemma findAnn_setFlagById (anns : List AnnItem) (i j : Nat) (b : Bool) :
    findAnn (setFlagById anns i b) j = (findAnn anns j).map
      (fun a => if a.sid = i then { a with hasSoundFlag := b } else a) := by
  induction anns with
  | nil => rfl
  | cons a rest ih =>
    have hsid : (if a.sid = i then { a with hasSoundFlag := b } else a).sid
        = a.sid := by
      split <;> rfl
    show findAnn ((if a.sid = i then { a with hasSoundFlag := b } else a)
        :: setFlagById rest i b) j = _
    simp only [findAnn]
    by_cases hj : a.sid = j
    · rw [if_pos (by rw [hsid]; exact hj), if_pos hj]
      rfl
    · rw [if_neg (by rw [hsid]; exact hj), if_neg hj]
      exact ih

lemma existsAnn_setFlagById (anns : List AnnItem) (i j : Nat) (b : Bool) :
    existsAnn (setFlagById anns i b) j = existsAnn anns j := by
  unfold existsAnn
  rw [findAnn_setFlagById]
  cases findAnn anns j <;> rfl

lemma isStaffTextIn_setFlagById (anns : List AnnItem) (i j : Nat) (b : Bool) :
    isStaffTextIn (setFlagById anns i b) j = isStaffTextIn anns j := by
  unfold isStaffTextIn
  rw [findAnn_setFlagById]
  cases findAnn anns j with
  | none => rfl
  | some a =>
    show (if a.sid = i then { a with hasSoundFlag := b } else a).isStaffText
      = a.isStaffText
    split <;> rfl

lemma linksOf_setFlagById (anns : List AnnItem) (i j : Nat) (b : Bool) :
    linksOf (setFlagById anns i b) j = linksOf anns j := by
  unfold linksOf
  rw [findAnn_setFlagById]
  cases findAnn anns j with
  | none => rfl
  | some a =>
    show (if a.sid = i then { a with hasSoundFlag := b } else a).links = a.links
    split <;> rfl

lemma hasFlagIn_setFlagById_ne (anns : List AnnItem) (i j : Nat) (b : Bool)
    (hne : j ≠ i) : hasFlagIn (setFlagById anns i b) j = hasFlagIn anns j := by
  unfold hasFlagIn
  rw [findAnn_setFlagById]
  cases h : findAnn anns j with
  | none => rfl
  | some a =>
    have hsid : a.sid = j := findAnn_sid anns j a h
    show (if a.sid = i then { a with hasSoundFlag := b } else a).hasSoundFlag
      = a.hasSoundFlag
    rw [if_neg (by rw [hsid]; exact hne)]

lemma hasFlagIn_setFlagById_self (anns : List AnnItem) (i : Nat) (b : Bool)
    (hex : existsAnn anns i = true) : hasFlagIn (setFlagById anns i b) i = b := by
  unfold hasFlagIn
  rw [findAnn_setFlagById]
  unfold existsAnn at hex
  cases h : findAnn anns i with
  | none => rw [h] at hex; cases hex
  | some a =>
    have hsid : a.sid = i := findAnn_sid anns i a h
    show (if a.sid = i then { a with hasSoundFlag := b } else a).hasSoundFlag = b
    rw [if_pos hsid]

lemma hasFlagIn_setFlagById_true_mono (anns : List AnnItem) (i j : Nat)
    (h : hasFlagIn anns j = true) :
    hasFlagIn (setFlagById anns i true) j = true := by
  by_cases hij : j = i
  · rw [hij]
    refine hasFlagIn_setFlagById_self anns i true ?_
    rw [hij] at h
    unfold hasFlagIn at h
    unfold existsAnn
    cases hf : findAnn anns i with
    | none => rw [hf] at h; cases h
    | some a => rfl
  · rw [hasFlagIn_setFlagById_ne anns i j true hij]
    exact h

lemma existsAnn_of_isStaffTextIn (anns : List AnnItem) (j : Nat)
    (h : isStaffTextIn anns j = true) : existsAnn anns j = true := by
  unfold isStaffTextIn at h
  unfold existsAnn
  cases hf : findAnn anns j with
  | none =>
    rw [hf] at h
    exact absurd h (by exact Bool.false_ne_true)
  | some a => rfl

lemma addFlagStep_cases (orig : Nat) (anns : List AnnItem) (l : Nat) :
    addFlagStep orig anns l = anns
      ∨ addFlagStep orig anns l = setFlagById anns l true := by
  unfold addFlagStep
  split
  · split
    · split
      · exact Or.inr rfl
      · exact Or.inl rfl
    · exact Or.inl rfl
  · exact Or.inl rfl

lemma addFlagStep_sets (orig : Nat) (anns : List AnnItem) (l : Nat)
    (hne : l ≠ orig) (hst : isStaffTextIn anns l = true) :
    addFlagStep orig anns l = setFlagById anns l true := by
  unfold addFlagStep
  rw [if_pos hne]
  unfold isStaffTextIn at hst
  cases hf : findAnn anns l with
  | none =>
    rw [hf] at hst
    exact absurd hst (by exact Bool.false_ne_true)
  | some la =>
    rw [hf] at hst
    show (if la.isStaffText then setFlagById anns l true else anns)
      = setFlagById anns l true
    rw [if_pos hst]

lemma addFlagToLinks_cons (orig l : Nat) (ls : List Nat) (anns : List AnnItem) :
    addFlagToLinks orig (l :: ls) anns
      = addFlagToLinks orig ls (addFlagStep orig anns l) := rfl

lemma existsAnn_addFlagStep (orig : Nat) (anns : List AnnItem) (l j : Nat) :
    existsAnn (addFlagStep orig anns l) j = existsAnn anns j := by
  rcases addFlagStep_cases orig anns l with h | h
  · rw [h]
  · rw [h, existsAnn_setFlagById]

lemma isStaffTextIn_addFlagStep (orig : Nat) (anns : List AnnItem) (l j : Nat) :
    isStaffTextIn (addFlagStep orig anns l) j = isStaffTextIn anns j := by
  rcases addFlagStep_cases orig anns l with h | h
  · rw [h]
  · rw [h, isStaffTextIn_setFlagById]

lemma linksOf_addFlagStep (orig : Nat) (anns : List AnnItem) (l j : Nat) :
    linksOf (addFlagStep orig anns l) j = linksOf anns j := by
  rcases addFlagStep_cases orig anns l with h | h
  · rw [h]
  · rw [h, linksOf_setFlagById]

lemma hasFlagIn_addFlagStep_mono (orig : Nat) (anns : List AnnItem) (l j : Nat)
    (h : hasFlagIn anns j = true) :
    hasFlagIn (addFlagStep orig anns l) j = true := by
  rcases addFlagStep_cases orig anns l with he | he
  · rw [he]; exact h
  · rw [he]; exact hasFlagIn_setFlagById_true_mono anns l j h

lemma hasFlagIn_addFlagStep_bound (orig : Nat) (anns : List AnnItem) (l j : Nat)
    (h : hasFlagIn (addFlagStep orig anns l) j = true) :
    hasFlagIn anns j = true ∨ j = l := by
  rcases addFlagStep_cases orig anns l with he | he
  · rw [he] at h; exact Or.inl h
  · by_cases hjl : j = l
    · exact Or.inr hjl
    · rw [he, hasFlagIn_setFlagById_ne anns l j true hjl] at h
      exact Or.inl h

lemma existsAnn_addFlagToLinks (orig : Nat) (ls : List Nat)
    (anns : List AnnItem) (j : Nat) :
    existsAnn (addFlagToLinks orig ls anns) j = existsAnn anns j := by
  induction ls generalizing anns with
  | nil => rfl
  | cons l rest ih => rw [addFlagToLinks_cons, ih, existsAnn_addFlagStep]

lemma isStaffTextIn_addFlagToLinks (orig : Nat) (ls : List Nat)
    (anns : List AnnItem) (j : Nat) :
    isStaffTextIn (addFlagToLinks orig ls anns) j = isStaffTextIn anns j := by
  induction ls generalizing anns with
  | nil => rfl
  | cons l rest ih => rw [addFlagToLinks_cons, ih, isStaffTextIn_addFlagStep]

lemma linksOf_addFlagToLinks (orig : Nat) (ls : List Nat)
    (anns : List AnnItem) (j : Nat) :
    linksOf (addFlagToLinks orig ls anns) j = linksOf anns j := by
  induction ls generalizing anns with
  | nil => rfl
  | cons l rest ih => rw [addFlagToLinks_cons, ih, linksOf_addFlagStep]

lemma hasFlagIn_addFlagToLinks_mono (orig : Nat) (ls : List Nat)
    (anns : List AnnItem) (j : Nat) (h : hasFlagIn anns j = true) :
    hasFlagIn (addFlagToLinks orig ls anns) j = true := by
  induction ls generalizing anns with
  | nil => exact h
  | cons l rest ih =>
    rw [addFlagToLinks_cons]
    exact ih _ (hasFlagIn_addFlagStep_mono orig anns l j h)

lemma hasFlagIn_addFlagToLinks_covers (orig : Nat) (ls : List Nat) (j : Nat)
    (hne : j ≠ orig) :
    ∀ anns : List AnnItem, j ∈ ls → isStaffTextIn anns j = true →
      hasFlagIn (addFlagToLinks orig ls anns) j = true := by
  induction ls with
  | nil =>
    intro anns hj _
    cases hj
  | cons l rest ih =>
    intro anns hj hst
    rw [addFlagToLinks_cons]
    by_cases hjl : j = l
    · refine hasFlagIn_addFlagToLinks_mono orig rest _ j ?_
      rw [← hjl, addFlagStep_sets orig anns j hne hst]
      exact hasFlagIn_setFlagById_self anns j true
        (existsAnn_of_isStaffTextIn anns j hst)
    · have hj' : j ∈ rest := by
        rcases List.mem_cons.mp hj with h1 | h2
        · exact absurd h1 hjl
        · exact h2
      refine ih _ hj' ?_
      rw [isStaffTextIn_addFlagStep]
      exact hst

lemma hasFlagIn_addFlagToLinks_bound (orig : Nat) (ls : List Nat)
    (anns : List AnnItem) (j : Nat)
    (h : hasFlagIn (addFlagToLinks orig ls anns) j = true) :
    hasFlagIn anns j = true ∨ j ∈ ls := by
  induction ls generalizing anns with
  | nil => exact Or.inl h
  | cons l rest ih =>
    rw [addFlagToLinks_cons] at h
    rcases ih _ h with h1 | h2
    · rcases hasFlagIn_addFlagStep_bound orig anns l j h1 with h3 | h3
      · exact Or.inl h3
      · exact Or.inr (by rw [h3]; exact List.mem_cons_self l rest)
    · exact Or.inr (List.mem_cons_of_mem l h2)

lemma doAddSoundFlag_cases (anns : List AnnItem) (i : Nat) :
    (doAddSoundFlag anns i = (anns, false) ∧
      (existsAnn anns i = true → hasFlagIn anns i = true)) ∨
    (hasFlagIn anns i = false ∧ existsAnn anns i = true ∧
      doAddSoundFlag anns i
        = (addFlagToLinks i (linksOf anns i) (setFlagById anns i true), true)) := by
  unfold doAddSoundFlag
  cases hf : findAnn anns i with
  | none =>
    left
    refine ⟨rfl, ?_⟩
    intro hex
    unfold existsAnn at hex
    rw [hf] at hex
    exact absurd hex (by exact Bool.false_ne_true)
  | some a =>
    by_cases hflag : a.hasSoundFlag
    · left
      constructor
      · show (if a.hasSoundFlag then (anns, false)
          else (addFlagToLinks i a.links (setFlagById anns i true), true))
            = (anns, false)
        rw [if_pos hflag]
      · intro _
        unfold hasFlagIn
        rw [hf]
        exact hflag
    · right
      refine ⟨?_, ?_, ?_⟩
      · unfold hasFlagIn
        rw [hf]
        exact Bool.eq_false_iff.mpr hflag
      · unfold existsAnn
        rw [hf]
        rfl
      · show (if a.hasSoundFlag then (anns, false)
          else (addFlagToLinks i a.links (setFlagById anns i true), true))
            = (addFlagToLinks i (linksOf anns i) (setFlagById anns i true), true)
        rw [if_neg hflag]
        have hl : linksOf anns i = a.links := by
          unfold linksOf
          rw [hf]
        rw [hl]

lemma existsAnn_doAddSoundFlag (anns : List AnnItem) (i j : Nat) :
    existsAnn (doAddSoundFlag anns i).1 j = existsAnn anns j := by
  rcases doAddSoundFlag_cases anns i with ⟨he, _⟩ | ⟨_, _, he⟩
  · rw [he]
  · rw [he]
    show existsAnn (addFlagToLinks i (linksOf anns i) (setFlagById anns i true)) j
      = existsAnn anns j
    rw [existsAnn_addFlagToLinks, existsAnn_setFlagById]

lemma isStaffTextIn_doAddSoundFlag (anns : List AnnItem) (i j : Nat) :
    isStaffTextIn (doAddSoundFlag anns i).1 j = isStaffTextIn anns j := by
  rcases doAddSoundFlag_cases anns i with ⟨he, _⟩ | ⟨_, _, he⟩
  · rw [he]
  · rw [he]
    show isStaffTextIn (addFlagToLinks i (linksOf anns i) (setFlagById anns i true)) j
      = isStaffTextIn anns j
    rw [isStaffTextIn_addFlagToLinks, isStaffTextIn_setFlagById]

lemma linksOf_doAddSoundFlag (anns : List AnnItem) (i j : Nat) :
    linksOf (doAddSoundFlag anns i).1 j = linksOf anns j := by
  rcases doAddSoundFlag_cases anns i with ⟨he, _⟩ | ⟨_, _, he⟩
  · rw [he]
  · rw [he]
    show linksOf (addFlagToLinks i (linksOf anns i) (setFlagById anns i true)) j
      = linksOf anns j
    rw [linksOf_addFlagToLinks, linksOf_setFlagById]

lemma hasFlagIn_doAddSoundFlag_mono (anns : List AnnItem) (i j : Nat)
    (h : hasFlagIn anns j = true) :
    hasFlagIn (doAddSoundFlag anns i).1 j = true := by
  rcases doAddSoundFlag_cases anns i with ⟨he, _⟩ | ⟨_, _, he⟩
  · rw [he]
    exact h
  · rw [he]
    exact hasFlagIn_addFlagToLinks_mono i (linksOf anns i) _ j
      (hasFlagIn_setFlagById_true_mono anns i j h)

lemma addSoundFlagsLoop_cons (anns : List AnnItem) (i : Nat) (rest : List Nat)
    (c : Bool) :
    addSoundFlagsLoop anns (i :: rest) c
      = addSoundFlagsLoop (doAddSoundFlag anns i).1 rest
          (c || (doAddSoundFlag anns i).2) := rfl

lemma addSoundFlagsLoop_fst_mono (ids : List Nat) (anns : List AnnItem)
    (c : Bool) (j : Nat) (h : hasFlagIn anns j = true) :
    hasFlagIn (addSoundFlagsLoop anns ids c).1 j = true := by
  induction ids generalizing anns c with
  | nil => exact h
  | cons i rest ih =>
    rw [addSoundFlagsLoop_cons]
    exact ih _ _ (hasFlagIn_doAddSoundFlag_mono anns i j h)

lemma addSoundFlagsLoop_snd_true (ids : List Nat) (anns : List AnnItem) :
    (addSoundFlagsLoop anns ids true).2 = true := by
  induction ids generalizing anns with
  | nil => rfl
  | cons i rest ih =>
    rw [addSoundFlagsLoop_cons, Bool.true_or]
    exact ih _

lemma addSoundFlagsLoop_added (ids : List Nat) (anns : List AnnItem)
    (hex : ∀ i ∈ ids, existsAnn anns i = true) :
    (addSoundFlagsLoop anns ids false).2
      = ids.any (fun i => !(hasFlagIn anns i)) := by
  induction ids generalizing anns with
  | nil => rfl
  | cons i rest ih =>
    rw [addSoundFlagsLoop_cons, List.any_cons]
    rcases doAddSoundFlag_cases anns i with ⟨he, himp⟩ | ⟨hval, _, he⟩
    · have hflag : hasFlagIn anns i = true :=
        himp (hex i (List.mem_cons_self i rest))
      rw [he, hflag]
      show (addSoundFlagsLoop anns rest (false || false)).2
        = (!true || rest.any fun i => !(hasFlagIn anns i))
      rw [Bool.not_true, Bool.false_or, Bool.false_or]
      exact ih anns fun i' hi' => hex i' (List.mem_cons_of_mem i hi')
    · rw [he, hval]
      show (addSoundFlagsLoop _ rest (false || true)).2
        = (!false || rest.any fun i => !(hasFlagIn anns i))
      rw [Bool.not_false, Bool.false_or, Bool.true_or]
      exact addSoundFlagsLoop_snd_true rest _

lemma addSoundFlagsLoop_flags (ids : List Nat) (anns : List AnnItem) (c : Bool)
    (hst : ∀ i ∈ ids, isStaffTextIn anns i = true)
    (hlinks : ∀ i ∈ ids, ∀ l ∈ linksOf anns i, isStaffTextIn anns l = true)
    (hshared : ∀ i ∈ ids, ∀ l ∈ linksOf anns i,
      linksOf anns l = linksOf anns i) :
    (∀ i ∈ ids, hasFlagIn (addSoundFlagsLoop anns ids c).1 i = true) ∧
    (∀ i ∈ ids, hasFlagIn anns i = false →
      ∀ l ∈ linksOf anns i,
        hasFlagIn (addSoundFlagsLoop anns ids c).1 l = true) := by
  induction ids generalizing anns c with
  | nil =>
    exact ⟨fun i hi => absurd hi (List.not_mem_nil i),
      fun i hi => absurd hi (List.not_mem_nil i)⟩
  | cons i rest ih =>
    have hmem : i ∈ i :: rest := List.mem_cons_self i rest
    rcases doAddSoundFlag_cases anns i with ⟨he, himp⟩ | ⟨hval, hexi, he⟩
    · have hflag : hasFlagIn anns i = true :=
        himp (existsAnn_of_isStaffTextIn anns i (hst i hmem))
      have hA1 : (doAddSoundFlag anns i).1 = anns := by rw [he]
      obtain ⟨g1, g2⟩ := ih anns (c || (doAddSoundFlag anns i).2)
        (fun i' hi' => hst i' (List.mem_cons_of_mem i hi'))
        (fun i' hi' => hlinks i' (List.mem_cons_of_mem i hi'))
        (fun i' hi' => hshared i' (List.mem_cons_of_mem i hi'))
      constructor
      · intro j hj
        rw [addSoundFlagsLoop_cons, hA1]
        rcases List.mem_cons.mp hj with h1 | h2
        · rw [h1]
          exact addSoundFlagsLoop_fst_mono rest anns _ i hflag
        · exact g1 j h2
      · intro j hj hjf l hl
        rw [addSoundFlagsLoop_cons, hA1]
        rcases List.mem_cons.mp hj with h1 | h2
        · rw [h1] at hjf
          exact absurd hflag (by rw [hjf]; exact Bool.false_ne_true)
        · exact g2 j h2 hjf l hl
    · have hA : (doAddSoundFlag anns i).1
          = addFlagToLinks i (linksOf anns i) (setFlagById anns i true) := by
        rw [he]
      have hstab_st : ∀ j, isStaffTextIn (doAddSoundFlag anns i).1 j
          = isStaffTextIn anns j := fun j => isStaffTextIn_doAddSoundFlag anns i j
      have hstab_ln : ∀ j, linksOf (doAddSoundFlag anns i).1 j
          = linksOf anns j := fun j => linksOf_doAddSoundFlag anns i j
      have f1 : hasFlagIn (doAddSoundFlag anns i).1 i = true := by
        rw [hA]
        exact hasFlagIn_addFlagToLinks_mono i _ _ i
          (hasFlagIn_setFlagById_self anns i true hexi)
      have f2 : ∀ l ∈ linksOf anns i,
          hasFlagIn (doAddSoundFlag anns i).1 l = true := by
        intro l hl
        by_cases hli : l = i
        · rw [hli]
          exact f1
        · rw [hA]
          refine hasFlagIn_addFlagToLinks_covers i (linksOf anns i) l hli
            (setFlagById anns i true) hl ?_
          rw [isStaffTextIn_setFlagById]
          exact hlinks i hmem l hl
      have f4 : ∀ j, hasFlagIn (doAddSoundFlag anns i).1 j = true →
          hasFlagIn anns j = true ∨ j = i ∨ j ∈ linksOf anns i := by
        intro j hj
        rw [hA] at hj
        rcases hasFlagIn_addFlagToLinks_bound i (linksOf anns i) _ j hj with h1 | h1
        · by_cases hji : j = i
          · exact Or.inr (Or.inl hji)
          · rw [hasFlagIn_setFlagById_ne anns i j true hji] at h1
            exact Or.inl h1
        · exact Or.inr (Or.inr h1)
      obtain ⟨g1, g2⟩ := ih (doAddSoundFlag anns i).1 (c || (doAddSoundFlag anns i).2)
        (fun i' hi' => by
          rw [hstab_st]
          exact hst i' (List.mem_cons_of_mem i hi'))
        (fun i' hi' l hl => by
          rw [hstab_st]
          refine hlinks i' (List.mem_cons_of_mem i hi') l ?_
          rw [hstab_ln] at hl
          exact hl)
        (fun i' hi' l hl => by
          rw [hstab_ln, hstab_ln]
          refine hshared i' (List.mem_cons_of_mem i hi') l ?_
          rw [hstab_ln] at hl
          exact hl)
      constructor
      · intro j hj
        rw [addSoundFlagsLoop_cons]
        rcases List.mem_cons.mp hj with h1 | h2
        · rw [h1]
          exact addSoundFlagsLoop_fst_mono rest _ _ i f1
        · exact g1 j h2
      · intro j hj hjf l hl
        rw [addSoundFlagsLoop_cons]
        rcases List.mem_cons.mp hj with h1 | h2
        · rw [h1] at hl
          exact addSoundFlagsLoop_fst_mono rest _ _ l (f2 l hl)
        · cases hj2 : hasFlagIn (doAddSoundFlag anns i).1 j with
          | false =>
            refine g2 j h2 hj2 l ?_
            rw [hstab_ln]
            exact hl
          | true =>
            rcases f4 j hj2 with h3 | h3 | h3
            · exact absurd h3 (by rw [hjf]; exact Bool.false_ne_true)
            · rw [h3] at hl
              exact addSoundFlagsLoop_fst_mono rest _ _ l (f2 l hl)
            · have hsh : linksOf anns j = linksOf anns i := hshared i hmem j h3
              rw [hsh] at hl
              exact addSoundFlagsLoop_fst_mono rest _ _ l (f2 l hl)

lemma addSoundFlags_unfolded (st : FlagState) (ids : List Nat) (h : ids ≠ []) :
    (addSoundFlags st ids).anns = (addSoundFlagsLoop st.anns ids false).1 ∧
    (addSoundFlags st ids).notifyCount = st.notifyCount
      + (if (addSoundFlagsLoop st.anns ids false).2 = true then 1 else 0) := by
  have hempty : ¬(ids.isEmpty = true) := by
    cases ids with
    | nil => exact absurd rfl h
    | cons a l => exact Bool.false_ne_true
  constructor
  · simp only [addSoundFlags, if_neg hempty]
    by_cases hr : (addSoundFlagsLoop st.anns ids false).2 = true
    · rw [if_pos hr]
    · rw [if_neg hr]
  · simp only [addSoundFlags, if_neg hempty]
    by_cases hr : (addSoundFlagsLoop st.anns ids false).2 = true
    · rw [if_pos hr, if_pos hr]
    · rw [if_neg hr, if_neg hr]
      rfl

/-- C8: for a non-empty list of staff texts (all resolving to staff-text
items whose link lists resolve to staff texts and are shared across the link
group, as the shared `LinkedObjects` list guarantees in the source),
`addSoundFlags` leaves every listed item carrying a sound flag; every listed
item that lacked a flag has, afterwards, a flag on itself and on all of its
linked copies; and the score-changed notification fires exactly once if at
least one listed item initially lacked a flag, and not at all if every listed
item already had one. -/
theorem addSoundFlags_spec (st : FlagState) (ids : List Nat)
    (hne : ids ≠ [])
    (hst : ∀ i ∈ ids, isStaffTextIn st.anns i = true)
    (hlinks : ∀ i ∈ ids, ∀ l ∈ linksOf st.anns i, isStaffTextIn st.anns l = true)
    (hshared : ∀ i ∈ ids, ∀ l ∈ linksOf st.anns i,
      linksOf st.anns l = linksOf st.anns i) :
    (∀ i ∈ ids, hasFlagIn (addSoundFlags st ids).anns i = true) ∧
    (∀ i ∈ ids, hasFlagIn st.anns i = false →
      ∀ l ∈ linksOf st.anns i, hasFlagIn (addSoundFlags st ids).anns l = true) ∧
    (addSoundFlags st ids).notifyCount = st.notifyCount
      + (if ids.any (fun i => !(hasFlagIn st.anns i)) = true then 1 else 0) := by
  obtain ⟨hanns, hcount⟩ := addSoundFlags_unfolded st ids hne
  obtain ⟨g1, g2⟩ := addSoundFlagsLoop_flags ids st.anns false hst hlinks hshared
  refine ⟨?_, ?_, ?_⟩
  · intro i hi
    rw [hanns]
    exact g1 i hi
  · intro i hi hf l hl
    rw [hanns]
    exact g2 i hi hf l hl
  · rw [hcount, addSoundFlagsLoop_added ids st.anns
      (fun i hi => existsAnn_of_isStaffTextIn st.anns i (hst i hi))]

/-- A concrete state for exercising `addSoundFlags`: staff texts 1 and 2 are
linked copies of each other (shared link list [1, 2]); neither carries a
sound flag yet. -/
def addFlagsDemoState : FlagState where
  anns := [⟨1, true, false, 7, [1, 2]⟩, ⟨2, true, false, 8, [1, 2]⟩]
  notifyCount := 0
  reloadCount := 0

/-- Witness for C8: running `addSoundFlags` on the one-element list [1] over
`addFlagsDemoState` flags both the original and its linked copy and fires
exactly one notification. -/
theorem addSoundFlags_spec_witness :
    ([1] : List Nat) ≠ [] ∧
    ((∀ i ∈ [1], hasFlagIn (addSoundFlags addFlagsDemoState [1]).anns i = true) ∧
     (∀ i ∈ [1], hasFlagIn addFlagsDemoState.anns i = false →
       ∀ l ∈ linksOf addFlagsDemoState.anns i,
         hasFlagIn (addSoundFlags addFlagsDemoState [1]).anns l = true) ∧
     (addSoundFlags addFlagsDemoState [1]).notifyCount
       = addFlagsDemoState.notifyCount
         + (if [1].any (fun i => !(hasFlagIn addFlagsDemoState.anns i)) = true
             then 1 else 0)) :=
  ⟨by decide, addSoundFlags_spec addFlagsDemoState [1]
    (by decide) (by decide) (by decide) (by decide)⟩

end MuseScorePlayback
